import Mathlib

/- Verification of the DLRN HTTP client (src/atkinson/dlrn/http_data.py).

The Python module is embedded shallowly: strings are Lean `String`s handled
at the character-list level, Python `None` is `Option.none`, a raised Python
exception is `Except.error` carrying the exception kind, and the network is an
explicit environment function from URLs to optional response bodies.  Each
definition mirrors one function or method of the source file. -/

namespace Atkinson

/-- Kinds of Python exceptions the embedded code can raise. -/
inductive PyError where
  | typeError
  | keyError
  | indexError
deriving DecidableEq

/-- Python `s[a:b]` character slicing for `0 ≤ a ≤ b` (as used by the source:
`[0:2]`, `[2:4]`, `[0:8]`). -/
def pySlice (s : String) (a b : Nat) : String :=
  String.mk ((s.data.drop a).take (b - a))

/-- Python `data.replace(' ', '_')`: every space character becomes an
underscore (the pattern is a single character, so this is a character map). -/
def replaceSpaces (s : String) : String :=
  String.mk (s.data.map (fun ch => if ch == ' ' then '_' else ch))

/-- Helper for splitting a character list at every separator character; the
accumulator holds the current token reversed.  Empty tokens are kept. -/
def splitCharsAux (p : Char → Bool) : List Char → List Char → List String
  | [], acc => [String.mk acc.reverse]
  | ch :: rest, acc =>
    if p ch then String.mk acc.reverse :: splitCharsAux p rest []
    else splitCharsAux p rest (ch :: acc)

/-- Python whitespace characters relevant to `str.split()`. -/
def pyWsChar (c : Char) : Bool :=
  c == ' ' || c == '\t' || c == '\n' || c == '\r' || c == '\x0b' || c == '\x0c'

/-- Python `data.split()`: split on runs of whitespace, dropping empty
tokens. -/
def pySplitWs (s : String) : List String :=
  (splitCharsAux pyWsChar s.data []).filter (fun t => t ≠ "")

/-- Splitting one CSV line at commas (the DLRN CSV files carry no quoting, so
the `csv` module behaves as plain comma splitting on them). -/
def splitComma (s : String) : List String :=
  splitCharsAux (fun c => c == ',') s.data []

/-- Leading-slash test used by `os.path.join`. -/
def startsWithSlash (s : String) : Bool :=
  match s.data with
  | [] => false
  | ch :: _ => ch == '/'

/-- Trailing-slash test used by `os.path.join`. -/
def endsWithSlash (s : String) : Bool :=
  match s.data.getLast? with
  | none => false
  | some ch => ch == '/'

/-- Python `os.path.join(a, b)` (posixpath): `b` wins if absolute; otherwise
append, inserting a slash unless `a` is empty or already ends in one. -/
def pathJoin2 (a b : String) : String :=
  if startsWithSlash b then b
  else if a == "" || endsWithSlash a then a ++ b
  else a ++ "/" ++ b

/-- The `DlrnHashes` namedtuple: fields may hold Python `None` (`none`) or a
string, including the literal string `"None"` that DLRN uses as a sentinel. -/
structure DlrnHashes where
  commit : Option String
  dist : Option String
  extended : Option String
deriving DecidableEq

/-- One element of the `commits` list of `commit.yaml`, with the keys the
source accesses; `extended_hash` is read with `.get`, so it is optional. -/
structure PkgRecord where
  status : String
  project_name : String
  distro_hash : String
  commit_hash : String
  extended_hash : Option String
deriving DecidableEq

/-- A parsed `commit.yaml` document: the source only tests `'commits' in data`
and indexes the list, so the document is its optional `commits` list. -/
structure CommitYaml where
  commits : Option (List PkgRecord)
deriving DecidableEq

/-- The `_commit_data` dictionary when populated (keys `name`, `dist_hash`,
`commit_hash`, `extended_hash`); the empty dictionary is `Option.none` at the
use site. -/
structure CommitData where
  name : String
  dist_hash : String
  commit_hash : String
  extended_hash : Option String
deriving DecidableEq

/-- Observable logger calls made by the embedded code. -/
inductive LogEvent where
  | statusWarning (pkg : PkgRecord)
  | fetchErrorLog (url : String)
deriving DecidableEq

/-- The body of the `for key in ['dist', 'extended']` loop of `_build_url`:
`data != 'None'` is true for Python `None` as well, after which `data[0:8]`
raises `TypeError`; the string `"None"` is skipped; any other string appends
`'_' + data[0:8]`. -/
def appendHashSeg (third : String) (data : Option String) : Except PyError String :=
  match data with
  | none => Except.error PyError.typeError
  | some s => if s = "None" then Except.ok third
              else Except.ok (third ++ "_" ++ pySlice s 0 8)

/-- `DlrnHttpData._build_url`: `hash_data.commit[0:2]` raises `TypeError` when
the commit hash is Python `None`; otherwise the sharded path
`self.url/first/second/third` is joined, `third` being the commit hash with
the optional dist/extended suffixes. -/
def build_url (self_url : String) (h : DlrnHashes) : Except PyError String :=
  match h.commit with
  | none => Except.error PyError.typeError
  | some c =>
    match appendHashSeg c h.dist with
    | Except.error err => Except.error err
    | Except.ok t1 =>
      match appendHashSeg t1 h.extended with
      | Except.error err => Except.error err
      | Except.ok t2 =>
        Except.ok (pathJoin2 (pathJoin2 (pathJoin2 self_url (pySlice c 0 2)) (pySlice c 2 4)) t2)

/-- The URL formula of the specification,
`base/release/h[0:2]/h[2:4]/h[0:]{_d[0:8]}{_e[0:8]}`, stated for present
(string-valued) hashes, each suffix kept exactly when the hash differs from
the sentinel string `"None"`.  Used to compare `build_url` against the spec. -/
def buildUrlSpec (base c d e : String) : String :=
  pathJoin2 (pathJoin2 (pathJoin2 base (pySlice c 0 2)) (pySlice c 2 4))
    (c ++ (if d = "None" then "" else "_" ++ pySlice d 0 8)
       ++ (if e = "None" then "" else "_" ++ pySlice e 0 8))

/-- `DlrnHttpData._fetch_commit`, as a function of the result of
`_fetch_yaml` on `<self.url>/<link_name>/commit.yaml`.  Returns the new
`_commit_data` together with the logger calls; `data['commits'][0]` on an
empty list raises `IndexError`. -/
def fetch_commit (data : Option CommitYaml) :
    Except PyError (Option CommitData × List LogEvent) :=
  match data with
  | none => Except.ok (none, [])
  | some y =>
    match y.commits with
    | none => Except.ok (none, [])
    | some [] => Except.error PyError.indexError
    | some (pkg :: _) =>
      if pkg.status = "SUCCESS" then
        Except.ok (some ⟨pkg.project_name, pkg.distro_hash, pkg.commit_hash, pkg.extended_hash⟩, [])
      else
        Except.ok (none, [LogEvent.statusWarning pkg])

/-- The instance attributes a `DlrnHttpData` object holds after `__init__`. -/
structure DlrnState where
  url : String
  release : String
  link_name : String
  commit_data : Option CommitData
deriving DecidableEq

/-- The URL `_fetch_commit` fetches: `join(join(base, release), link_name,
'commit.yaml')`. -/
def commitYamlUrl (base release link_name : String) : String :=
  pathJoin2 (pathJoin2 (pathJoin2 base release) link_name) "commit.yaml"

/-- `DlrnHttpData.__init__`: sets `url = join(base, release)`, stores the
release and link name, starts with an empty commit dictionary and runs
`_fetch_commit`.  The environment `yf` abstracts `_fetch_yaml` (absent fetch
or absent body gives `none`). -/
def dlrnInit (base release link_name : String) (yf : String → Option CommitYaml) :
    Except PyError (DlrnState × List LogEvent) :=
  match fetch_commit (yf (commitYamlUrl base release link_name)) with
  | Except.error err => Except.error err
  | Except.ok (cd, logs) =>
    Except.ok (⟨pathJoin2 base release, release, link_name, cd⟩, logs)

/-- The rows produced by `csv.DictReader` over the already split lines: the
first line supplies the field names, every further line is zipped against
them (the DLRN files are unquoted and rectangular, which is the fragment of
`DictReader` the source relies on). -/
def dictReaderRows (lines : List String) : List (List (String × String)) :=
  match lines with
  | [] => []
  | header :: rest =>
    rest.map (fun line => (splitComma header).zip (splitComma line))

/-- `DlrnHttpData._parse_csv` as a function of the fetched body: on an absent
body it logs an error and yields no rows; otherwise it replaces spaces by
underscores, splits into whitespace-separated lines and reads them as CSV. -/
def parse_csv (raw : Option String) (url : String) :
    List (List (String × String)) × List LogEvent :=
  match raw with
  | none => ([], [LogEvent.fetchErrorLog url])
  | some data => (dictReaderRows (pySplitWs (replaceSpaces data)), [])

/-- Python dictionary lookup on an association list (first binding wins; the
dictionaries built below never hold duplicate keys). -/
def rowLookup (row : List (String × α)) (q : String) : Option α :=
  match row with
  | [] => none
  | (k, v) :: rest => if k == q then some v else rowLookup rest q

/-- Python dictionary assignment `d[k] = v`: replace the binding in place if
the key exists, otherwise append it. -/
def dictInsert (d : List (String × α)) (k : String) (v : α) : List (String × α) :=
  match d with
  | [] => [(k, v)]
  | (k2, w) :: rest =>
    if k2 == k then (k, v) :: rest else (k2, w) :: dictInsert rest k v

/-- A `for` loop threading a dictionary through fallible per-row work; a
raised exception aborts the loop. -/
def foldSteps (step : δ → β → Except PyError δ) : δ → List β → Except PyError δ
  | d, [] => Except.ok d
  | d, r :: rs =>
    match step d r with
    | Except.error err => Except.error err
    | Except.ok d2 => foldSteps step d2 rs

/-- One `versions.csv` row reshaped by the `versions` property. -/
structure VersionRec where
  source : String
  state : String
  distgit : String
  nvr : String
deriving DecidableEq

/-- The loop body of the `versions` property: unguarded `row[...]` accesses
(a missing key raises `KeyError`, with the value dictionary built before the
assignment target is evaluated), then `ret_dict[row['Project']] = {...}`. -/
def versionsStep (d : List (String × VersionRec)) (row : List (String × String)) :
    Except PyError (List (String × VersionRec)) :=
  match rowLookup row "Source_Sha" with
  | none => Except.error PyError.keyError
  | some src =>
    match rowLookup row "Status" with
    | none => Except.error PyError.keyError
    | some st =>
      match rowLookup row "Dist_Sha" with
      | none => Except.error PyError.keyError
      | some dg =>
        match rowLookup row "Pkg_NVR" with
        | none => Except.error PyError.keyError
        | some nvr =>
          match rowLookup row "Project" with
          | none => Except.error PyError.keyError
          | some proj => Except.ok (dictInsert d proj ⟨src, st, dg, nvr⟩)

/-- The hash namedtuple the `versions` property builds from `_commit_data`
with `.get`: every field is Python `None` when the dictionary is empty, and
`extended_hash` can be `None` even when it is populated. -/
def versionsHashes (cd : Option CommitData) : DlrnHashes :=
  ⟨cd.map (fun c => c.commit_hash), cd.map (fun c => c.dist_hash),
   cd.bind (fun c => c.extended_hash)⟩

/-- The `DlrnHttpData.versions` property: build the artifact URL from the
commit dictionary, fetch and parse `versions.csv` under it, and fold the rows
into a project-keyed dictionary. -/
def versions (s : DlrnState) (fetchText : String → Option String) :
    Except PyError (List (String × VersionRec) × List LogEvent) :=
  match build_url s.url (versionsHashes s.commit_data) with
  | Except.error err => Except.error err
  | Except.ok burl =>
    match parse_csv (fetchText (pathJoin2 burl "versions.csv"))
        (pathJoin2 burl "versions.csv") with
    | (rows, logs) =>
      match foldSteps versionsStep [] rows with
      | Except.error err => Except.error err
      | Except.ok d => Except.ok (d, logs)

/-- The loop body of `get_failures`: rows whose `Status` is `"FAILED"` are
turned into a hash triple of the row's `Source_Sha`, `Dist_Sha` and
`Extended_Sha` (all strings, since they come from CSV cells) and stored under
the row's `Project`. -/
def failuresStep (self_url : String) (d : List (String × String))
    (row : List (String × String)) : Except PyError (List (String × String)) :=
  match rowLookup row "Status" with
  | none => Except.error PyError.keyError
  | some st =>
    if st = "FAILED" then
      match rowLookup row "Source_Sha" with
      | none => Except.error PyError.keyError
      | some src =>
        match rowLookup row "Dist_Sha" with
        | none => Except.error PyError.keyError
        | some ds =>
          match rowLookup row "Extended_Sha" with
          | none => Except.error PyError.keyError
          | some ex =>
            match build_url self_url ⟨some src, some ds, some ex⟩ with
            | Except.error err => Except.error err
            | Except.ok u =>
              match rowLookup row "Project" with
              | none => Except.error PyError.keyError
              | some proj => Except.ok (dictInsert d proj u)
    else Except.ok d

/-- `DlrnHttpData.get_failures`: fetch and parse
`<self.url>/status_report.csv` and fold its rows. -/
def get_failures (s : DlrnState) (fetchText : String → Option String) :
    Except PyError (List (String × String) × List LogEvent) :=
  match parse_csv (fetchText (pathJoin2 s.url "status_report.csv"))
      (pathJoin2 s.url "status_report.csv") with
  | (rows, logs) =>
    match foldSteps (failuresStep s.url) [] rows with
    | Except.error err => Except.error err
    | Except.ok d => Except.ok (d, logs)

/-- The `versions` property with the instance state threaded explicitly: the
method body assigns no attribute of `self`, so the state comes back as it
went in. -/
def versionsM (s : DlrnState) (f : String → Option String) :
    Except PyError ((List (String × VersionRec) × List LogEvent) × DlrnState) :=
  match versions s f with
  | Except.error err => Except.error err
  | Except.ok r => Except.ok (r, s)

/-- `get_failures` with the instance state threaded explicitly; the method
assigns no attribute of `self`. -/
def getFailuresM (s : DlrnState) (f : String → Option String) :
    Except PyError ((List (String × String) × List LogEvent) × DlrnState) :=
  match get_failures s f with
  | Except.error err => Except.error err
  | Except.ok r => Except.ok (r, s)

/-- One public accessor call, with the network environment it observes. -/
inductive AccessorCall where
  | versionsCall (f : String → Option String)
  | failuresCall (f : String → Option String)

/-- The instance state after one accessor call (a raised exception leaves the
object as it was). -/
def stateAfter (s : DlrnState) : AccessorCall → DlrnState
  | AccessorCall.versionsCall f =>
    match versionsM s f with
    | Except.ok (_, s2) => s2
    | Except.error _ => s
  | AccessorCall.failuresCall f =>
    match getFailuresM s f with
    | Except.ok (_, s2) => s2
    | Except.error _ => s

/-- The instance state after a sequence of accessor calls. -/
def runCalls (s : DlrnState) (calls : List AccessorCall) : DlrnState :=
  calls.foldl stateAfter s

/-- The `Project` cell of a row (defaulting like `dict.get` for stating
properties; the theorems only use it on rows that have the key). -/
def projOf (row : List (String × String)) : String :=
  (rowLookup row "Project").getD ""

/-- The `Status` cell of a row. -/
def statusOf (row : List (String × String)) : String :=
  (rowLookup row "Status").getD ""

/-- The record the `versions` property stores for a row. -/
def vrecOf (row : List (String × String)) : VersionRec :=
  ⟨(rowLookup row "Source_Sha").getD "", statusOf row,
   (rowLookup row "Dist_Sha").getD "", (rowLookup row "Pkg_NVR").getD ""⟩

/-- The URL `get_failures` stores for a FAILED row. -/
def failUrlOf (su : String) (row : List (String × String)) : String :=
  buildUrlSpec su ((rowLookup row "Source_Sha").getD "")
    ((rowLookup row "Dist_Sha").getD "") ((rowLookup row "Extended_Sha").getD "")

/-- A `versions.csv` row carrying every key the `versions` loop accesses. -/
def WFVersionRow (row : List (String × String)) : Prop :=
  (rowLookup row "Source_Sha").isSome ∧ (rowLookup row "Status").isSome ∧
  (rowLookup row "Dist_Sha").isSome ∧ (rowLookup row "Pkg_NVR").isSome ∧
  (rowLookup row "Project").isSome

/-- A `status_report.csv` row carrying every key the `get_failures` loop can
access. -/
def WFFailRow (row : List (String × String)) : Prop :=
  (rowLookup row "Status").isSome ∧ (rowLookup row "Source_Sha").isSome ∧
  (rowLookup row "Dist_Sha").isSome ∧ (rowLookup row "Extended_Sha").isSome ∧
  (rowLookup row "Project").isSome

instance (row : List (String × String)) : Decidable (WFVersionRow row) := by
  unfold WFVersionRow
  infer_instance

instance (row : List (String × String)) : Decidable (WFFailRow row) := by
  unfold WFFailRow
  infer_instance

/-- The dictionary the `versions` loop builds from its rows. -/
def versDict (rows : List (List (String × String))) : List (String × VersionRec) :=
  rows.foldl (fun d r => dictInsert d (projOf r) (vrecOf r)) []

/-- The dictionary the `get_failures` loop builds from its rows. -/
def failDict (su : String) (rows : List (List (String × String))) :
    List (String × String) :=
  rows.foldl
    (fun d r => if statusOf r = "FAILED" then dictInsert d (projOf r) (failUrlOf su r) else d) []

/-- The last element of a list satisfying a predicate (later rows of a CSV
file take priority in a dictionary build). -/
def lastMatch (pred : β → Bool) : List β → Option β
  | [] => none
  | r :: rs =>
    match lastMatch pred rs with
    | some q => some q
    | none => if pred r then some r else none

/-- On a triple of present (string-valued) hashes, `build_url` never raises
and agrees with the specification formula. -/
theorem build_url_some_eq (base c d e : String) :
    build_url base ⟨some c, some d, some e⟩ = Except.ok (buildUrlSpec base c d e) := by
  by_cases hd : d = "None" <;> by_cases he : e = "None" <;>
    simp [build_url, appendHashSeg, buildUrlSpec, hd, he, String.append_assoc,
      String.append_empty]

/-- Lookup after a Python dictionary assignment: the assigned key now maps to
the new value, every other key is untouched. -/
theorem rowLookup_dictInsert (d : List (String × α)) (k : String) (v : α) (q : String) :
    rowLookup (dictInsert d k v) q = if k == q then some v else rowLookup d q := by
  induction d with
  | nil => simp [dictInsert, rowLookup]
  | cons p rest ih =>
    obtain ⟨k2, w⟩ := p
    by_cases h2 : k2 = k
    · subst h2
      by_cases hq : k2 = q <;> simp [dictInsert, rowLookup, hq]
    · by_cases hq : k2 = q
      · subst hq
        have hkq : ¬(k = k2) := fun hh => h2 hh.symm
        simp [dictInsert, rowLookup, h2, hkq]
      · simp [dictInsert, rowLookup, h2, hq, ih]

/-- Folding unconditional dictionary assignments over rows: a key ends up
bound to the value of the last row that carries it. -/
theorem rowLookup_versInsert (rows : List (List (String × String))) :
    ∀ (d0 : List (String × VersionRec)) (p : String),
      rowLookup (rows.foldl (fun d r => dictInsert d (projOf r) (vrecOf r)) d0) p =
        match lastMatch (fun r => projOf r == p) rows with
        | some q => some (vrecOf q)
        | none => rowLookup d0 p := by
  induction rows with
  | nil => intro d0 p; rfl
  | cons r rs ih =>
    intro d0 p
    rw [List.foldl_cons, ih]
    cases hm : lastMatch (fun r => projOf r == p) rs with
    | some q => simp [lastMatch, hm]
    | none =>
      simp only [lastMatch, hm]
      rw [rowLookup_dictInsert]
      by_cases hp : projOf r = p
      · simp [hp]
      · simp [hp]

/-- Folding the FAILED-guarded dictionary assignments of `get_failures`: a key
ends up bound to the URL of the last FAILED row that carries it. -/
theorem rowLookup_failInsert (su : String) (rows : List (List (String × String))) :
    ∀ (d0 : List (String × String)) (p : String),
      rowLookup (rows.foldl
          (fun d r => if statusOf r = "FAILED" then
            dictInsert d (projOf r) (failUrlOf su r) else d) d0) p =
        match lastMatch (fun r => statusOf r == "FAILED" && (projOf r == p)) rows with
        | some q => some (failUrlOf su q)
        | none => rowLookup d0 p := by
  induction rows with
  | nil => intro d0 p; rfl
  | cons r rs ih =>
    intro d0 p
    rw [List.foldl_cons, ih]
    cases hm : lastMatch (fun r => statusOf r == "FAILED" && (projOf r == p)) rs with
    | some q => simp [lastMatch, hm]
    | none =>
      simp only [lastMatch, hm]
      by_cases hs : statusOf r = "FAILED"
      · rw [if_pos hs, rowLookup_dictInsert]
        by_cases hp : projOf r = p
        · simp [hs, hp]
        · simp [hs, hp]
      · rw [if_neg hs]
        simp [hs]

/-- On a row carrying every needed key, the `versions` loop body performs the
dictionary assignment and raises nothing. -/
theorem versionsStep_of_wf (d : List (String × VersionRec))
    (row : List (String × String)) (h : WFVersionRow row) :
    versionsStep d row = Except.ok (dictInsert d (projOf row) (vrecOf row)) := by
  obtain ⟨h1, h2, h3, h4, h5⟩ := h
  obtain ⟨src, e1⟩ := Option.isSome_iff_exists.mp h1
  obtain ⟨st, e2⟩ := Option.isSome_iff_exists.mp h2
  obtain ⟨dg, e3⟩ := Option.isSome_iff_exists.mp h3
  obtain ⟨nvr, e4⟩ := Option.isSome_iff_exists.mp h4
  obtain ⟨proj, e5⟩ := Option.isSome_iff_exists.mp h5
  simp [versionsStep, projOf, vrecOf, statusOf, e1, e2, e3, e4, e5]

/-- On a row carrying every needed key, the `get_failures` loop body performs
the guarded dictionary assignment and raises nothing. -/
theorem failuresStep_of_wf (su : String) (d : List (String × String))
    (row : List (String × String)) (h : WFFailRow row) :
    failuresStep su d row = Except.ok
      (if statusOf row = "FAILED" then
        dictInsert d (projOf row) (failUrlOf su row) else d) := by
  obtain ⟨h1, h2, h3, h4, h5⟩ := h
  obtain ⟨st, e1⟩ := Option.isSome_iff_exists.mp h1
  obtain ⟨src, e2⟩ := Option.isSome_iff_exists.mp h2
  obtain ⟨ds, e3⟩ := Option.isSome_iff_exists.mp h3
  obtain ⟨ex, e4⟩ := Option.isSome_iff_exists.mp h4
  obtain ⟨proj, e5⟩ := Option.isSome_iff_exists.mp h5
  by_cases hs : st = "FAILED"
  · simp [failuresStep, statusOf, projOf, failUrlOf, e1, e2, e3, e4, e5, hs,
      build_url_some_eq]
  · simp [failuresStep, statusOf, e1, hs]

/-- Over well-formed rows the `versions` loop raises nothing and equals the
pure dictionary fold. -/
theorem foldSteps_versions (rows : List (List (String × String)))
    (h : ∀ r ∈ rows, WFVersionRow r) :
    ∀ d0, foldSteps versionsStep d0 rows =
      Except.ok (rows.foldl (fun d r => dictInsert d (projOf r) (vrecOf r)) d0) := by
  induction rows with
  | nil => intro d0; rfl
  | cons r rs ih =>
    intro d0
    have hr : WFVersionRow r := h r (List.mem_cons_self r rs)
    have hrs : ∀ x ∈ rs, WFVersionRow x := fun x hx => h x (List.mem_cons_of_mem r hx)
    simp only [foldSteps, versionsStep_of_wf d0 r hr, List.foldl_cons]
    exact ih hrs _

/-- Over well-formed rows the `get_failures` loop raises nothing and equals
the pure guarded dictionary fold. -/
theorem foldSteps_failures (su : String) (rows : List (List (String × String)))
    (h : ∀ r ∈ rows, WFFailRow r) :
    ∀ d0, foldSteps (failuresStep su) d0 rows =
      Except.ok (rows.foldl
        (fun d r => if statusOf r = "FAILED" then
          dictInsert d (projOf r) (failUrlOf su r) else d) d0) := by
  induction rows with
  | nil => intro d0; rfl
  | cons r rs ih =>
    intro d0
    have hr : WFFailRow r := h r (List.mem_cons_self r rs)
    have hrs : ∀ x ∈ rs, WFFailRow x := fun x hx => h x (List.mem_cons_of_mem r hx)
    simp only [foldSteps, failuresStep_of_wf su d0 r hr, List.foldl_cons]
    exact ih hrs _

/-- A single accessor call leaves the instance state unchanged. -/
theorem stateAfter_eq (s : DlrnState) (c : AccessorCall) : stateAfter s c = s := by
  cases c with
  | versionsCall f =>
    cases hv : versions s f <;> simp [stateAfter, versionsM, hv]
  | failuresCall f =>
    cases hv : get_failures s f <;> simp [stateAfter, getFailuresM, hv]

/-- C1 (amended): for every hash triple whose commit, dist and extended
fields are all strings, `_build_url` returns the path base/release joined
with the first two characters of the commit hash, then the next two
characters, then the full commit hash, with an underscore plus the first
eight characters of the dist hash appended exactly when the dist string
differs from the literal string "None", and likewise for the extended hash,
in that order. -/
theorem build_url_matches_spec (base c d e : String) :
    build_url base ⟨some c, some d, some e⟩ = Except.ok (buildUrlSpec base c d e) :=
  build_url_some_eq base c d e

/-- C1 counterexample: on a triple whose commit field is a string but whose
dist field is absent (Python None), `_build_url` raises TypeError instead of
returning the URL with the dist suffix omitted; the claim's universal
statement over triples with a string commit field fails here. -/
theorem build_url_absent_dist_cex :
    build_url "base/release" ⟨some "aa11bb22", none, none⟩ =
      Except.error PyError.typeError := rfl

/-- C2: construction fetches base/release/link/commit.yaml; a first commit
with status SUCCESS populates the commit record with exactly its
project_name, distro_hash, commit_hash and optional extended_hash; any other
status logs a warning carrying that record and leaves the record empty; an
absent fetch leaves the record empty with no exception. -/
theorem init_commit_spec (base release link : String)
    (yf : String → Option CommitYaml) :
    (yf (commitYamlUrl base release link) = none →
      dlrnInit base release link yf =
        Except.ok (⟨pathJoin2 base release, release, link, none⟩, [])) ∧
    (∀ y pkg rest, yf (commitYamlUrl base release link) = some y →
      y.commits = some (pkg :: rest) → pkg.status = "SUCCESS" →
      dlrnInit base release link yf =
        Except.ok (⟨pathJoin2 base release, release, link,
          some ⟨pkg.project_name, pkg.distro_hash, pkg.commit_hash,
            pkg.extended_hash⟩⟩, [])) ∧
    (∀ y pkg rest, yf (commitYamlUrl base release link) = some y →
      y.commits = some (pkg :: rest) → pkg.status ≠ "SUCCESS" →
      dlrnInit base release link yf =
        Except.ok (⟨pathJoin2 base release, release, link, none⟩,
          [LogEvent.statusWarning pkg])) := by
  refine ⟨fun h => ?_, fun y pkg rest hy hc hs => ?_, fun y pkg rest hy hc hs => ?_⟩
  · simp [dlrnInit, h, fetch_commit]
  · simp [dlrnInit, hy, fetch_commit, hc, hs]
  · simp [dlrnInit, hy, fetch_commit, hc, hs]

/-- Witness for C2: the three construction scenarios at concrete inputs. -/
theorem init_commit_spec_witness :
    dlrnInit "b" "r" "cur" (fun _ => none) =
      Except.ok (⟨"b/r", "r", "cur", none⟩, []) ∧
    dlrnInit "b" "r" "cur" (fun _ => some ⟨some [⟨"SUCCESS", "foo", "dh", "ch", none⟩]⟩) =
      Except.ok (⟨"b/r", "r", "cur", some ⟨"foo", "dh", "ch", none⟩⟩, []) ∧
    dlrnInit "b" "r" "cur" (fun _ => some ⟨some [⟨"ERROR", "foo", "dh", "ch", none⟩]⟩) =
      Except.ok (⟨"b/r", "r", "cur", none⟩,
        [LogEvent.statusWarning ⟨"ERROR", "foo", "dh", "ch", none⟩]) := by
  refine ⟨?_, ?_, ?_⟩
  · exact ((init_commit_spec "b" "r" "cur" (fun _ => none)).1 rfl).trans rfl
  · exact ((init_commit_spec "b" "r" "cur" _).2.1 _ ⟨"SUCCESS", "foo", "dh", "ch", none⟩
      [] rfl rfl rfl).trans rfl
  · exact ((init_commit_spec "b" "r" "cur" _).2.2 _ ⟨"ERROR", "foo", "dh", "ch", none⟩
      [] rfl rfl (by decide)).trans rfl

/-- C3 (amended): when the commit record is empty, the versions accessor does
not produce a URL: slicing the absent commit hash raises TypeError, which
propagates to the caller. -/
theorem versions_empty_commit_raises (s : DlrnState) (f : String → Option String)
    (h : s.commit_data = none) : versions s f = Except.error PyError.typeError := by
  cases s with
  | mk u r l cd =>
    dsimp only at h
    subst h
    rfl

/-- C3 counterexample: on an instance with an empty commit record the
versions accessor raises TypeError; it does not operate on placeholder
hashes and return a URL. -/
theorem versions_empty_commit_cex :
    versions ⟨"base/release", "release", "current", none⟩ (fun _ => none) =
      Except.error PyError.typeError := rfl

/-- Witness for C3 (amended): a concrete empty-record instance raising. -/
theorem versions_empty_commit_raises_witness :
    versions ⟨"b/r", "r", "cur", none⟩ (fun _ => some "Project\nfoo") =
      Except.error PyError.typeError :=
  versions_empty_commit_raises _ _ rfl

/-- C4: over a status_report.csv whose rows carry the expected fields,
get_failures succeeds with the dictionary holding exactly the FAILED rows:
a project is bound iff some FAILED row names it, and it is bound to the URL
built from the (Source_Sha, Dist_Sha, Extended_Sha) triple of the last such
row. -/
theorem get_failures_spec (s : DlrnState) (f : String → Option String)
    (rows : List (List (String × String))) (logs : List LogEvent)
    (hfetch : parse_csv (f (pathJoin2 s.url "status_report.csv"))
      (pathJoin2 s.url "status_report.csv") = (rows, logs))
    (hwf : ∀ r ∈ rows, WFFailRow r) :
    get_failures s f = Except.ok (failDict s.url rows, logs) ∧
    ∀ p, rowLookup (failDict s.url rows) p =
      (lastMatch (fun r => statusOf r == "FAILED" && (projOf r == p)) rows).map
        (failUrlOf s.url) := by
  constructor
  · simp [get_failures, hfetch, foldSteps_failures s.url rows hwf, failDict]
  · intro p
    rw [failDict, rowLookup_failInsert]
    cases lastMatch (fun r => statusOf r == "FAILED" && (projOf r == p)) rows <;>
      simp [rowLookup]

/-- Witness for C4: the spec's end-to-end scenario; the single FAILED row
Project=bar, Source_Sha=aa11bb22, Dist_Sha=cc33dd44, Extended_Sha=None maps
bar to base/release/aa/11/aa11bb22_cc33dd44. -/
theorem get_failures_spec_witness :
    get_failures ⟨"base/release", "release", "current", none⟩
      (fun _ => some "Project,Status,Source_Sha,Dist_Sha,Extended_Sha\nbar,FAILED,aa11bb22,cc33dd44,None") =
      Except.ok ([("bar", "base/release/aa/11/aa11bb22_cc33dd44")], []) :=
  ((get_failures_spec ⟨"base/release", "release", "current", none⟩
      (fun _ => some "Project,Status,Source_Sha,Dist_Sha,Extended_Sha\nbar,FAILED,aa11bb22,cc33dd44,None")
      [[("Project", "bar"), ("Status", "FAILED"), ("Source_Sha", "aa11bb22"),
        ("Dist_Sha", "cc33dd44"), ("Extended_Sha", "None")]] []
      rfl (by decide)).1).trans rfl

/-- C5: over a versions.csv whose rows carry the expected fields, the
versions accessor succeeds with the dictionary mapping each row's Project to
the record (source = Source_Sha, state = Status, distgit = Dist_Sha,
nvr = Pkg_NVR); for duplicate project names the record of the last such row
wins. -/
theorem versions_csv_spec (s : DlrnState) (f : String → Option String) (u : String)
    (rows : List (List (String × String))) (logs : List LogEvent)
    (hurl : build_url s.url (versionsHashes s.commit_data) = Except.ok u)
    (hfetch : parse_csv (f (pathJoin2 u "versions.csv"))
      (pathJoin2 u "versions.csv") = (rows, logs))
    (hwf : ∀ r ∈ rows, WFVersionRow r) :
    versions s f = Except.ok (versDict rows, logs) ∧
    ∀ p, rowLookup (versDict rows) p =
      (lastMatch (fun r => projOf r == p) rows).map vrecOf := by
  constructor
  · simp [versions, hurl, hfetch, foldSteps_versions rows hwf, versDict]
  · intro p
    rw [versDict, rowLookup_versInsert]
    cases lastMatch (fun r => projOf r == p) rows <;> simp [rowLookup]

/-- Witness for C5: two rows for project foo; the second (last) row's record
is the one returned. -/
theorem versions_csv_spec_witness :
    versions ⟨"base/release", "release", "current",
        some ⟨"foo", "cc33dd44", "1234567890abcdef", some "None"⟩⟩
      (fun _ => some "Project,Source_Sha,Status,Dist_Sha,Pkg_NVR\nfoo,s1,SUCCESS,d1,n1\nfoo,s2,FAILED,d2,n2") =
      Except.ok ([("foo", ⟨"s2", "FAILED", "d2", "n2"⟩)], []) :=
  ((versions_csv_spec ⟨"base/release", "release", "current",
        some ⟨"foo", "cc33dd44", "1234567890abcdef", some "None"⟩⟩
      (fun _ => some "Project,Source_Sha,Status,Dist_Sha,Pkg_NVR\nfoo,s1,SUCCESS,d1,n1\nfoo,s2,FAILED,d2,n2")
      "base/release/12/34/1234567890abcdef_cc33dd44"
      [[("Project", "foo"), ("Source_Sha", "s1"), ("Status", "SUCCESS"),
        ("Dist_Sha", "d1"), ("Pkg_NVR", "n1")],
       [("Project", "foo"), ("Source_Sha", "s2"), ("Status", "FAILED"),
        ("Dist_Sha", "d2"), ("Pkg_NVR", "n2")]] []
      rfl rfl (by decide)).1).trans rfl

/-- C6: on a fetched text, the CSV row parser replaces every space by an
underscore, splits the text into whitespace-separated lines, and yields one
mapping per data row zipping the header tokens with the row's cells; on
well-formed rows (cell count equal to the header count) the keys of every
row are exactly the header tokens. -/
theorem parse_csv_spec (text u header : String) (dataLines : List String)
    (hsplit : pySplitWs (replaceSpaces text) = header :: dataLines)
    (hlen : ∀ l ∈ dataLines, (splitComma l).length = (splitComma header).length) :
    parse_csv (some text) u =
      (dataLines.map (fun l => (splitComma header).zip (splitComma l)), []) ∧
    ∀ l ∈ dataLines,
      ((splitComma header).zip (splitComma l)).map Prod.fst = splitComma header := by
  constructor
  · simp [parse_csv, hsplit, dictReaderRows]
  · intro l hl
    exact List.map_fst_zip _ _ (le_of_eq (hlen l hl).symm)

/-- Witness for C6: a text with a space in a cell; the space becomes an
underscore and the row zips against the header. -/
theorem parse_csv_spec_witness :
    parse_csv (some "A,B\nx y,z") "u" = ([[("A", "x_y"), ("B", "z")]], []) :=
  ((parse_csv_spec "A,B\nx y,z" "u" "A,B" ["x_y,z"] rfl (by decide)).1).trans rfl

/-- C7: when the versions.csv fetch comes back absent, the versions accessor
logs an error for that URL, treats the input as empty and returns the empty
mapping instead of raising. -/
theorem versions_fetch_absent (s : DlrnState) (f : String → Option String)
    (u : String)
    (hurl : build_url s.url (versionsHashes s.commit_data) = Except.ok u)
    (hf : f (pathJoin2 u "versions.csv") = none) :
    versions s f =
      Except.ok ([], [LogEvent.fetchErrorLog (pathJoin2 u "versions.csv")]) := by
  simp [versions, hurl, hf, parse_csv, foldSteps]

/-- Witness for C7: a populated instance whose fetches all fail returns the
empty dictionary and logs the failed URL. -/
theorem versions_fetch_absent_witness :
    versions ⟨"base/release", "release", "current",
        some ⟨"foo", "cc33dd44", "1234567890abcdef", some "None"⟩⟩ (fun _ => none) =
      Except.ok ([],
        [LogEvent.fetchErrorLog "base/release/12/34/1234567890abcdef_cc33dd44/versions.csv"]) :=
  (versions_fetch_absent
    ⟨"base/release", "release", "current",
      some ⟨"foo", "cc33dd44", "1234567890abcdef", some "None"⟩⟩
    (fun _ => none) "base/release/12/34/1234567890abcdef_cc33dd44" rfl rfl).trans rfl

/-- C8: no sequence of versions/get_failures calls changes the instance
state set at construction (its url, release, link name and commit record). -/
theorem accessors_preserve_state (s : DlrnState) (calls : List AccessorCall) :
    runCalls s calls = s := by
  induction calls generalizing s with
  | nil => rfl
  | cons c cs ih =>
    rw [runCalls, List.foldl_cons, stateAfter_eq]
    exact ih s

/-- C9: a fetched commit.yaml whose commits key holds an empty list makes
construction raise IndexError on indexing the first element, and the error
propagates out of the constructor. -/
theorem init_empty_commits_raises (base release link : String)
    (yf : String → Option CommitYaml) (y : CommitYaml)
    (hy : yf (commitYamlUrl base release link) = some y)
    (hc : y.commits = some []) :
    dlrnInit base release link yf = Except.error PyError.indexError := by
  simp [dlrnInit, hy, fetch_commit, hc]

/-- Witness for C9: a concrete empty commits list aborts construction. -/
theorem init_empty_commits_raises_witness :
    dlrnInit "b" "r" "cur" (fun _ => some ⟨some []⟩) =
      Except.error PyError.indexError :=
  init_empty_commits_raises "b" "r" "cur" _ ⟨some []⟩ rfl rfl

/-- C10: get_failures does not depend on the commit record: two instances
with the same url and release observing the same fetched bodies return
identical results, whatever their commit records and link names. -/
theorem get_failures_commit_independent (s1 s2 : DlrnState)
    (f : String → Option String) (hu : s1.url = s2.url)
    (hr : s1.release = s2.release) :
    get_failures s1 f = get_failures s2 f := by
  cases s1 with
  | mk u1 r1 l1 c1 =>
    cases s2 with
    | mk u2 r2 l2 c2 =>
      dsimp only at hu
      subst hu
      rfl

/-- Witness for C10: a populated-record instance and an empty-record instance
with the same url agree on get_failures. -/
theorem get_failures_commit_independent_witness :
    get_failures ⟨"base/release", "release", "current",
        some ⟨"foo", "dh", "chash123", some "None"⟩⟩ (fun _ => none) =
      get_failures ⟨"base/release", "release", "current", none⟩ (fun _ => none) :=
  get_failures_commit_independent _ _ _ rfl rfl

end Atkinson
